import Mathlib

/-!
Shallow embedding of `app.py`, a FastAPI server-rendered front-end over a
remote authenticated article API.  Pure string transforms (`create_slug`,
`extract_first_author`), the two upstream-client operations
(`fetch_articles`, `fetch_article_by_id`) and the two request handlers
(`serve_article_list`, `serve_article_detail`) are modelled as total Lean
functions.  JSON values returned by `response.json()` are modelled by the
`Json` inductive, with `Json.null` doubling as Python `None`.  An uncaught
Python exception inside a handler (which FastAPI turns into a generic
500 response) is modelled by `PyRes.crash`; an outer `Option` layer marks
inputs outside the model (a present `title`/`author`/`Title`/`Authors`
field whose value is not a string), never reached by the theorems below.
-/

namespace Paperium

/-- JSON values as produced by `response.json()`.  `Json.null` is Python
`None`; numbers are modelled as integers. -/
inductive Json : Type where
  | null : Json
  | bool : Bool → Json
  | num : Int → Json
  | str : String → Json
  | arr : List Json → Json
  | obj : List (String × Json) → Json

/-- Python truthiness of a JSON value (`not data.get("data")` etc.). -/
def pyTruthy : Json → Bool
  | Json.null => false
  | Json.bool b => b
  | Json.num n => n != 0
  | Json.str s => s != ""
  | Json.arr xs => !xs.isEmpty
  | Json.obj fs => !fs.isEmpty

/-- Key lookup in a JSON object (Python `d[k]` / `d.get(k)`); objects are
association lists with the first binding of a key the visible one. -/
def lookupJ : List (String × Json) → String → Option Json
  | [], _ => none
  | (k', v) :: rest, k => if k' = k then some v else lookupJ rest k

/-- Python `d[k] = v` on a dict: overwrite the key if present, else append. -/
def setKey : List (String × Json) → String → Json → List (String × Json)
  | [], k, v => [(k, v)]
  | (k', v') :: rest, k, v =>
    if k' = k then (k, v) :: rest else (k', v') :: setKey rest k v

/-- `article.get(k, '')` restricted to the modelled cases: an absent key
yields the default `""`, a string value yields itself, and a present
non-string value falls outside the model (`none`). -/
def dictGetStr (a : List (String × Json)) (k : String) : Option String :=
  match lookupJ a k with
  | none => some ""
  | some (Json.str s) => some s
  | some _ => none

/-- Python `str.isspace` characters (the Unicode White_Space set plus the
`\x1c`–`\x1f` separators), as stripped by `str.strip()`. -/
def pyIsSpace (c : Char) : Bool :=
  (9 ≤ c.toNat && c.toNat ≤ 13) || (28 ≤ c.toNat && c.toNat ≤ 31) ||
  c.toNat = 32 || c.toNat = 0x85 || c.toNat = 0xA0 || c.toNat = 0x1680 ||
  (0x2000 ≤ c.toNat && c.toNat ≤ 0x200A) || c.toNat = 0x2028 ||
  c.toNat = 0x2029 || c.toNat = 0x202F || c.toNat = 0x205F ||
  c.toNat = 0x3000

/-- Python `s.strip()`: drop leading and trailing whitespace. -/
def pyStrip (l : List Char) : List Char :=
  ((l.dropWhile pyIsSpace).reverse.dropWhile pyIsSpace).reverse

/-- `extract_first_author` from `app.py`: empty string for falsy input,
otherwise `author_string.split(',', maxsplit=1)[0].strip()` — the longest
comma-free prefix, stripped.  -/
def extract_first_author (author_string : String) : String :=
  if author_string = "" then ""
  else String.mk (pyStrip (author_string.data.takeWhile (fun c => c ≠ ',')))

/-- ASCII alphanumeric, the characters python-slugify keeps. -/
def isAsciiAlnum (c : Char) : Bool :=
  (48 ≤ c.toNat && c.toNat ≤ 57) || (65 ≤ c.toNat && c.toNat ≤ 90) ||
  (97 ≤ c.toNat && c.toNat ≤ 122)

/-- ASCII lowercasing, as python-slugify's `lower=True` acts on ASCII. -/
def lowerAscii (c : Char) : Char :=
  if 65 ≤ c.toNat ∧ c.toNat ≤ 90 then Char.ofNat (c.toNat + 32) else c

/-- One slug character: alphanumerics are lowercased, everything else
becomes the separator `-` (runs are collapsed and ends trimmed later). -/
def toSlugChar (c : Char) : Char :=
  if isAsciiAlnum c then lowerAscii c else '-'

/-- Collapse consecutive separators to a single `-`. -/
def squeeze : List Char → List Char
  | [] => []
  | [a] => [a]
  | a :: b :: rest =>
    if a = '-' ∧ b = '-' then squeeze (b :: rest)
    else a :: squeeze (b :: rest)

/-- Drop leading separators. -/
def trimLeft (l : List Char) : List Char := l.dropWhile (fun c => c = '-')

/-- Drop trailing separators. -/
def trimRight : List Char → List Char
  | [] => []
  | a :: rest =>
    match trimRight rest with
    | [] => if a = '-' then [] else [a]
    | b :: t => a :: b :: t

/-- Modelled from the spec: the external `slugify` library call
(python-slugify with its defaults `lower=True`, `separator='-'`),
"a lowercased, hyphen-separated, punctuation-stripped representation of
the text suitable for use as a URL path segment".  Restricted to its
ASCII behaviour: lowercase the alphanumerics, replace every other
character by `-`, collapse runs of `-`, and strip `-` from both ends
(Unicode transliteration is not modelled). -/
def slugify (s : String) : String :=
  String.mk (trimRight (trimLeft (squeeze (s.data.map toSlugChar))))

/-- `create_slug` from `app.py`: `""` for falsy input, else `slugify`. -/
def create_slug (title : String) : String :=
  if title = "" then "" else slugify title

example : create_slug "The C# API & Python Renderer!" = "the-c-api-python-renderer" := by decide
example : create_slug "Hello, World!" = "hello-world" := by decide
example : extract_first_author "  Smith , Jones" = "Smith" := by decide

/-- The fixed page size constant (`PAGE_SIZE = 50` in `app.py`). -/
def PAGE_SIZE : Nat := 50

/-- One upstream HTTP exchange as seen by an `httpx` client: either the
transport fails (connection error, timeout, …) or a response arrives with
a status code and a body; a body of `none` is one `response.json()`
cannot parse. -/
inductive Transport : Type where
  | failure : Transport
  | response : Nat → Option Json → Transport

/-- httpx `response.raise_for_status()` raises unless the status is a
success (2xx). -/
def is2xx (status : Nat) : Bool := 200 ≤ status && status < 300

/-- `fetch_articles` from `app.py`, as a function of the configured
`API_BASE_URL` and the upstream exchange.  With the base URL unset
(`None`), `API_BASE_URL + "/GetArticles"` raises `TypeError` inside the
`try`, is caught by `except Exception`, and `None` is returned.  With a
base URL, a transport failure or any non-2xx status (via
`raise_for_status`) is caught and `None` is returned; on a 2xx response
the parsed JSON body is returned (a body `json()` cannot parse raises
and again yields `None`). -/
def fetch_articles (api_base_url : Option String) (t : Transport) : Option Json :=
  match api_base_url with
  | none => none
  | some _ =>
    match t with
    | Transport.failure => none
    | Transport.response status body => if is2xx status then body else none

/-- `fetch_article_by_id` from `app.py`: identical failure contract to
`fetch_articles` (same `try`/`except` shape around an authenticated GET
of `API_BASE_URL + "/GetArticleByID"`). -/
def fetch_article_by_id (api_base_url : Option String) (t : Transport) : Option Json :=
  match api_base_url with
  | none => none
  | some _ =>
    match t with
    | Transport.failure => none
    | Transport.response status body => if is2xx status then body else none

/-- Outcome of running a handler body: `crash` is an uncaught Python
exception (surfaced by FastAPI as a generic 500), `ok` a value the
handler returned. -/
inductive PyRes (α : Type) : Type where
  | crash : PyRes α
  | ok : α → PyRes α

/-- The response the list handler hands to the template layer: either the
`error.html` view with an explicit status, or the `articles_template.html`
view with its context (enriched records, `current_page`, `total_pages`,
`page_size`, `search_term`). -/
inductive ListResponse : Type where
  | error : Nat → String → ListResponse
  | page : Nat → List (List (String × Json)) → Json → Json → Nat → Option String → ListResponse

/-- The response of the detail handler: a redirect (never produced by the
code, present so the spec's redirect policy is expressible), an
`HTTPException`, or the rendered `article_detail.html` view with the
article record and its derived `short_author`. -/
inductive DetailPage : Type where
  | redirect : String → DetailPage
  | httpError : Nat → String → DetailPage
  | page : Nat → List (String × Json) → String → DetailPage

/-- One iteration of the list handler's enrichment loop on `article`:
`article['slug'] = create_slug(article.get('title', ''))` and
`article['shortAuthorName'] = extract_first_author(article.get('author', ''))`.
A non-dict record raises (`.get` on it) — `crash`; a present non-string
`title`/`author` is outside the model — `none`. -/
def enrichRecord : Json → Option (PyRes (List (String × Json)))
  | Json.obj a =>
    match dictGetStr a "title", dictGetStr a "author" with
    | some t, some au =>
      some (PyRes.ok (setKey (setKey a "slug" (Json.str (create_slug t)))
        "shortAuthorName" (Json.str (extract_first_author au))))
    | _, _ => none
  | _ => some PyRes.crash

/-- The list handler's `for article in data['data']` loop, enriching each
record in order; the first crash aborts the request. -/
def enrichAll : List Json → Option (PyRes (List (List (String × Json))))
  | [] => some (PyRes.ok [])
  | j :: rest =>
    match enrichRecord j with
    | none => none
    | some PyRes.crash => some PyRes.crash
    | some (PyRes.ok r) =>
      match enrichAll rest with
      | none => none
      | some PyRes.crash => some PyRes.crash
      | some (PyRes.ok rs) => some (PyRes.ok (r :: rs))

/-- `serve_article_list` from `app.py`, as a function of the value
`fetch_articles` returned and the `search` query parameter.  `data is
None or not data.get("data")` renders `error.html` with status 500;
otherwise every record is enriched and the loop also reads
`data['totalPages']` and `data['currentPage']` (a `KeyError` there, a
non-dict `data`, or a truthy non-list `data['data']` is an uncaught
exception — `crash`).  On success the list view is rendered with the
enriched records, current page, total pages, `PAGE_SIZE` and the echoed
search term. -/
def serve_article_list (data : Option Json) (search : Option String) :
    Option (PyRes ListResponse) :=
  match data with
  | none => some (PyRes.ok (ListResponse.error 500 "Could not load article data."))
  | some Json.null => some (PyRes.ok (ListResponse.error 500 "Could not load article data."))
  | some (Json.obj fields) =>
    match lookupJ fields "data" with
    | none => some (PyRes.ok (ListResponse.error 500 "Could not load article data."))
    | some v =>
      if pyTruthy v then
        match v with
        | Json.arr records =>
          match enrichAll records with
          | none => none
          | some PyRes.crash => some PyRes.crash
          | some (PyRes.ok enriched) =>
            match lookupJ fields "totalPages", lookupJ fields "currentPage" with
            | some tp, some cp =>
              some (PyRes.ok (ListResponse.page 200 enriched cp tp PAGE_SIZE search))
            | _, _ => some PyRes.crash
        | _ => some PyRes.crash
      else some (PyRes.ok (ListResponse.error 500 "Could not load article data."))
  | some _ => some PyRes.crash

/-- `serve_article_detail` from `app.py`, as a function of the value
`fetch_article_by_id` returned and the `slug` path parameter.  The code
unwraps `article = article['D']` BEFORE the `if article is None` check:
a failed fetch (`None`) makes that subscript raise `TypeError` — `crash`.
A missing `'D'` key raises `KeyError` — `crash`.  An unwrapped `None`
(JSON `null` under `'D'`) reaches the check and raises
`HTTPException(404)`.  Otherwise the expected slug is computed from
`Title`; a mismatch with the supplied slug does nothing (`pass`), and the
detail view is rendered with the article and its `short_author`. -/
def serve_article_detail (fetched : Option Json) (slug : String) :
    Option (PyRes DetailPage) :=
  match fetched with
  | none => some PyRes.crash
  | some Json.null => some PyRes.crash
  | some (Json.obj fields) =>
    match lookupJ fields "D" with
    | none => some PyRes.crash
    | some Json.null =>
      some (PyRes.ok (DetailPage.httpError 404 "Article not found or API call failed"))
    | some (Json.obj a) =>
      match dictGetStr a "Title", dictGetStr a "Authors" with
      | some t, some au =>
        if slug = create_slug t then
          some (PyRes.ok (DetailPage.page 200 a (extract_first_author au)))
        else
          some (PyRes.ok (DetailPage.page 200 a (extract_first_author au)))
      | _, _ => none
    | some _ => some PyRes.crash
  | some _ => some PyRes.crash

/-- Whether a detail-handler outcome is a redirect response. -/
def isRedirect : Option (PyRes DetailPage) → Bool
  | some (PyRes.ok (DetailPage.redirect _)) => true
  | _ => false

/-- Python truthiness of `os.environ.get(...)`: unset (`None`) and the
empty string are falsy. -/
def pyTruthyOptStr : Option String → Bool
  | none => false
  | some s => s != ""

/-- Module import of `app.py`: both environment variables are read, and
`if not API_KEY: raise ValueError(...)` aborts startup; `API_BASE_URL`
is not validated.  `Except.error` is the raised `ValueError` (the process
never serves a request); `Except.ok` is a completed import. -/
def startup (api_base_url api_key : Option String) : Except String Unit :=
  match api_base_url, api_key with
  | _, key =>
    if pyTruthyOptStr key then Except.ok ()
    else Except.error "C_SHARP_API_KEY environment variable not set!"

/-- The spec's description of author extraction, stated independently of
the code: "the substring before the first comma, with surrounding
whitespace removed; if no comma is present, the entire trimmed string; if
input is empty, empty string". -/
def extract_first_author_spec (s : String) : String :=
  if s = "" then ""
  else if s.data.contains ',' then
    String.mk (pyStrip (s.data.take (s.data.indexOf ',')))
  else String.mk (pyStrip s.data)

lemma takeWhile_ne_eq_take_indexOf (l : List Char) :
    l.takeWhile (fun c => c ≠ ',') = l.take (l.indexOf ',') := by
  induction l with
  | nil => rfl
  | cons c rest ih =>
    by_cases h : c = ','
    · subst h
      simp [List.takeWhile_cons, List.indexOf_cons_self]
    · rw [List.indexOf_cons_ne _ h]
      simp only [Nat.succ_eq_add_one, List.take_succ_cons]
      rw [List.takeWhile_cons, if_pos (by simp [h])]
      exact congrArg (List.cons c) ih

/- ------------------------------------------------------------------ -/
/- Claims                                                              -/
/- ------------------------------------------------------------------ -/

/-- C1.  The claim says a failed fetch makes the detail handler return
HTTP 404 without reading any field off the absent result.  The code
instead evaluates `article['D']` on `None` before its `None` check, so a
failed fetch raises `TypeError` (an uncaught exception, surfaced as a
generic 500), and the intended `HTTPException(404, "Article not found or
API call failed")` — whose own message names the API-call-failure case —
is never reached. -/
theorem C1_detail_crashes_on_absent_fetch :
    ∀ slug : String,
      serve_article_detail none slug = some PyRes.crash ∧
      serve_article_detail none slug ≠
        some (PyRes.ok (DetailPage.httpError 404 "Article not found or API call failed")) := by
  intro slug
  constructor
  · rfl
  · intro h
    simp [serve_article_detail] at h

/-- C3.  Every list-handler request whose upstream result is absent
(`None`, also a JSON `null` body), or whose `data` record collection is
missing or falsy (empty list, `null`, …), renders the `error.html` view
with HTTP 500; these branches return before the enrichment loop, so
`create_slug` and `extract_first_author` are never applied. -/
theorem C3_list_error_on_absent_or_empty :
    ∀ search : Option String,
      serve_article_list none search =
        some (PyRes.ok (ListResponse.error 500 "Could not load article data.")) ∧
      serve_article_list (some Json.null) search =
        some (PyRes.ok (ListResponse.error 500 "Could not load article data.")) ∧
      (∀ fields, lookupJ fields "data" = none →
        serve_article_list (some (Json.obj fields)) search =
          some (PyRes.ok (ListResponse.error 500 "Could not load article data."))) ∧
      (∀ fields v, lookupJ fields "data" = some v → pyTruthy v = false →
        serve_article_list (some (Json.obj fields)) search =
          some (PyRes.ok (ListResponse.error 500 "Could not load article data."))) := by
  intro search
  refine ⟨rfl, rfl, ?_, ?_⟩
  · intro fields h
    simp [serve_article_list, h]
  · intro fields v h ht
    simp [serve_article_list, h, ht]

/-- C3 witness: an upstream body whose `data` collection is the empty
list yields the 500 error view. -/
theorem C3_witness :
    serve_article_list (some (Json.obj [("data", Json.arr [])])) none =
      some (PyRes.ok (ListResponse.error 500 "Could not load article data.")) :=
  (C3_list_error_on_absent_or_empty none).2.2.2 [("data", Json.arr [])] (Json.arr []) rfl rfl

/-- C5.  `extract_first_author` agrees everywhere with the spec's
description (substring before the first comma, trimmed; the whole
trimmed string when no comma; empty for empty), and matches the spec's
four worked examples. -/
theorem C5_extract_first_author_correct :
    (∀ s, extract_first_author s = extract_first_author_spec s) ∧
    extract_first_author "Smith, Jones" = "Smith" ∧
    extract_first_author "Smith" = "Smith" ∧
    extract_first_author "" = "" ∧
    extract_first_author "  Smith , Jones" = "Smith" := by
  refine ⟨?_, by decide, by decide, by decide, by decide⟩
  intro s
  unfold extract_first_author extract_first_author_spec
  by_cases hs : s = ""
  · simp [hs]
  · simp only [hs, if_false]
    by_cases hc : s.data.contains ','
    · rw [if_pos hc, takeWhile_ne_eq_take_indexOf]
    · rw [if_neg (by simpa using hc)]
      have hc' : ',' ∉ s.data := fun hm => hc (List.elem_iff.mpr hm)
      have : s.data.takeWhile (fun c => c ≠ ',') = s.data := by
        rw [List.takeWhile_eq_self_iff]
        intro x hx
        have hne : x ≠ ',' := fun hx' => hc' (hx' ▸ hx)
        simpa using hne
      rw [this]

/-- C7.  Both upstream-client operations return an absent result (`None`,
never an empty collection) on a transport failure or any non-2xx status,
and return the parsed JSON body on a 2xx response. -/
theorem C7_fetch_absent_on_failure :
    ∀ base : String,
      (fetch_articles (some base) Transport.failure = none ∧
       fetch_article_by_id (some base) Transport.failure = none) ∧
      (∀ status body, is2xx status = false →
        fetch_articles (some base) (Transport.response status body) = none ∧
        fetch_article_by_id (some base) (Transport.response status body) = none) ∧
      (∀ status j, is2xx status = true →
        fetch_articles (some base) (Transport.response status (some j)) = some j ∧
        fetch_article_by_id (some base) (Transport.response status (some j)) = some j) := by
  intro base
  refine ⟨⟨rfl, rfl⟩, ?_, ?_⟩
  · intro status body h
    exact ⟨by simp [fetch_articles, h], by simp [fetch_article_by_id, h]⟩
  · intro status j h
    exact ⟨by simp [fetch_articles, h], by simp [fetch_article_by_id, h]⟩

/-- C7 witness: a 404 reply yields an absent result; a 200 reply yields
its parsed body. -/
theorem C7_witness :
    fetch_articles (some "http://api") (Transport.response 404 (some (Json.arr []))) = none ∧
    fetch_article_by_id (some "http://api") (Transport.response 200 (some Json.null)) =
      some Json.null :=
  ⟨((C7_fetch_absent_on_failure "http://api").2.1 404 (some (Json.arr [])) (by decide)).1,
   ((C7_fetch_absent_on_failure "http://api").2.2 200 Json.null (by decide)).2⟩

/-- C8.  Startup raises (and the process serves no request) exactly when
`API_KEY` is unset or empty; with a non-empty key the module import
completes. -/
theorem C8_startup_requires_api_key :
    (∀ b, startup b none =
      Except.error "C_SHARP_API_KEY environment variable not set!") ∧
    (∀ b, startup b (some "") =
      Except.error "C_SHARP_API_KEY environment variable not set!") ∧
    (∀ b k, k ≠ "" → startup b (some k) = Except.ok ()) := by
  refine ⟨fun b => rfl, fun b => rfl, ?_⟩
  intro b k h
  simp [startup, pyTruthyOptStr, h]

/-- C8 witness: a configured key starts; it is non-empty. -/
theorem C8_witness :
    startup none (some "secret") = Except.ok () :=
  C8_startup_requires_api_key.2.2 none "secret" (by decide)

/-- C10.  Startup validates only `API_KEY`: with `API_BASE_URL` unset the
service still starts, every call to either fetch operation raises inside
its `try` (string concatenation with `None`), is caught by the generic
handler and returns an absent result, and so every list request renders
the HTTP 500 error view. -/
theorem C10_missing_base_url_degrades_to_500 :
    (∀ k, k ≠ "" → startup none (some k) = Except.ok ()) ∧
    (∀ t, fetch_articles none t = none ∧ fetch_article_by_id none t = none) ∧
    (∀ t search, serve_article_list (fetch_articles none t) search =
      some (PyRes.ok (ListResponse.error 500 "Could not load article data."))) := by
  refine ⟨?_, fun t => ⟨rfl, rfl⟩, fun t search => rfl⟩
  intro k h
  simp [startup, pyTruthyOptStr, h]

/-- C10 witness: with no base URL and a valid key, a request backed by a
healthy upstream still yields the 500 error view. -/
theorem C10_witness :
    startup none (some "secret") = Except.ok () ∧
    serve_article_list
      (fetch_articles none (Transport.response 200 (some (Json.obj [("data", Json.arr [Json.obj []])])))) none =
      some (PyRes.ok (ListResponse.error 500 "Could not load article data.")) :=
  ⟨C10_missing_base_url_degrades_to_500.1 "secret" (by decide),
   C10_missing_base_url_degrades_to_500.2.2
     (Transport.response 200 (some (Json.obj [("data", Json.arr [Json.obj []])]))) none⟩

lemma lookupJ_setKey_self (a : List (String × Json)) (k : String) (v : Json) :
    lookupJ (setKey a k v) k = some v := by
  induction a with
  | nil => simp [setKey, lookupJ]
  | cons p rest ih =>
    obtain ⟨k0, v0⟩ := p
    by_cases hk : k0 = k
    · simp [setKey, hk, lookupJ]
    · simp [setKey, hk, lookupJ, ih]

lemma lookupJ_setKey_other (a : List (String × Json)) (k : String) (v : Json)
    (k' : String) (h : k' ≠ k) :
    lookupJ (setKey a k v) k' = lookupJ a k' := by
  induction a with
  | nil => simp [setKey, lookupJ, Ne.symm h]
  | cons p rest ih =>
    obtain ⟨k0, v0⟩ := p
    by_cases hk : k0 = k
    · subst hk
      simp [setKey, lookupJ, Ne.symm h]
    · by_cases hk' : k0 = k'
      · subst hk'
        simp [setKey, hk, lookupJ]
      · simp [setKey, hk, lookupJ, hk', ih]

/-- The enriched record produced by one loop iteration, spelled out. -/
lemma enrichRecord_eq (a : List (String × Json)) (t au : String)
    (ht : dictGetStr a "title" = some t) (hau : dictGetStr a "author" = some au) :
    enrichRecord (Json.obj a) =
      some (PyRes.ok (setKey (setKey a "slug" (Json.str (create_slug t)))
        "shortAuthorName" (Json.str (extract_first_author au)))) := by
  simp [enrichRecord, ht, hau]

/-- Shared success path of the list handler. -/
lemma serve_list_success (fields : List (String × Json)) (records : List Json)
    (enriched : List (List (String × Json))) (tp cp : Json) (search : Option String)
    (hd : lookupJ fields "data" = some (Json.arr records))
    (hne : records ≠ [])
    (he : enrichAll records = some (PyRes.ok enriched))
    (htp : lookupJ fields "totalPages" = some tp)
    (hcp : lookupJ fields "currentPage" = some cp) :
    serve_article_list (some (Json.obj fields)) search =
      some (PyRes.ok (ListResponse.page 200 enriched cp tp PAGE_SIZE search)) := by
  obtain ⟨x, xs, rfl⟩ := List.exists_cons_of_ne_nil hne
  simp [serve_article_list, hd, pyTruthy, he, htp, hcp]

/-- C2 counterexample.  A successful fetch for an article titled
"Hello, World!" requested under the non-canonical slug "wrong-slug" is
answered with the rendered detail page (HTTP 200), not a redirect: the
`if slug != expected_slug:` branch ends in `pass`. -/
theorem C2_counterexample :
    "wrong-slug" ≠ create_slug "Hello, World!" ∧
    isRedirect (serve_article_detail
      (some (Json.obj [("D", Json.obj
        [("Title", Json.str "Hello, World!"), ("Authors", Json.str "Smith, Jones")])]))
      "wrong-slug") = false ∧
    serve_article_detail
      (some (Json.obj [("D", Json.obj
        [("Title", Json.str "Hello, World!"), ("Authors", Json.str "Smith, Jones")])]))
      "wrong-slug" =
      some (PyRes.ok (DetailPage.page 200
        [("Title", Json.str "Hello, World!"), ("Authors", Json.str "Smith, Jones")]
        "Smith")) :=
  ⟨by decide, rfl, rfl⟩

/-- C2 amended.  For every successful detail-page fetch the handler
computes the expected slug from the article's `Title` field, but a
mismatching supplied slug is NOT redirected: the handler renders the
detail page (HTTP 200) identically for every supplied slug. -/
theorem C2_detail_never_redirects :
    ∀ (fields a : List (String × Json)) (t au slug : String),
      lookupJ fields "D" = some (Json.obj a) →
      dictGetStr a "Title" = some t →
      dictGetStr a "Authors" = some au →
      serve_article_detail (some (Json.obj fields)) slug =
        some (PyRes.ok (DetailPage.page 200 a (extract_first_author au))) := by
  intro fields a t au slug hD ht hau
  simp [serve_article_detail, hD, ht, hau]

/-- C2 witness: the amended behaviour at the counterexample's input. -/
theorem C2_witness :
    serve_article_detail
      (some (Json.obj [("D", Json.obj
        [("Title", Json.str "Hello, World!"), ("Authors", Json.str "Smith, Jones")])]))
      "another-bad-slug" =
      some (PyRes.ok (DetailPage.page 200
        [("Title", Json.str "Hello, World!"), ("Authors", Json.str "Smith, Jones")]
        "Smith")) := by
  have h := C2_detail_never_redirects
    [("D", Json.obj [("Title", Json.str "Hello, World!"), ("Authors", Json.str "Smith, Jones")])]
    [("Title", Json.str "Hello, World!"), ("Authors", Json.str "Smith, Jones")]
    "Hello, World!" "Smith, Jones" "another-bad-slug" rfl rfl rfl
  simpa using h

/-- C9.  Enrichment is frame-preserving: each loop iteration only sets
`slug` (a pure function of `title`) and `shortAuthorName` (a pure
function of `author`); every other key's binding is unchanged.  The
pagination metadata `totalPages` and `currentPage` are passed into the
rendered context verbatim. -/
theorem C9_enrichment_frame :
    (∀ (a : List (String × Json)) (t au : String),
      dictGetStr a "title" = some t → dictGetStr a "author" = some au →
      ∃ r, enrichRecord (Json.obj a) = some (PyRes.ok r) ∧
        lookupJ r "slug" = some (Json.str (create_slug t)) ∧
        lookupJ r "shortAuthorName" = some (Json.str (extract_first_author au)) ∧
        ∀ k, k ≠ "slug" → k ≠ "shortAuthorName" → lookupJ r k = lookupJ a k) ∧
    (∀ (fields : List (String × Json)) (records : List Json)
        (enriched : List (List (String × Json))) (tp cp : Json) (search : Option String),
      lookupJ fields "data" = some (Json.arr records) → records ≠ [] →
      enrichAll records = some (PyRes.ok enriched) →
      lookupJ fields "totalPages" = some tp → lookupJ fields "currentPage" = some cp →
      serve_article_list (some (Json.obj fields)) search =
        some (PyRes.ok (ListResponse.page 200 enriched cp tp PAGE_SIZE search))) := by
  constructor
  · intro a t au ht hau
    refine ⟨_, enrichRecord_eq a t au ht hau, ?_, ?_, ?_⟩
    · rw [lookupJ_setKey_other _ _ _ _ (by decide), lookupJ_setKey_self]
    · rw [lookupJ_setKey_self]
    · intro k hk1 hk2
      rw [lookupJ_setKey_other _ _ _ _ hk2, lookupJ_setKey_other _ _ _ _ hk1]
  · exact serve_list_success

/-- C9 witness: a record with an extra `id` field keeps it unchanged, and
concrete pagination values flow through. -/
theorem C9_witness :
    (∃ r, enrichRecord (Json.obj
        [("id", Json.num 7), ("title", Json.str "Hello, World!"),
         ("author", Json.str "Smith, Jones")]) = some (PyRes.ok r) ∧
      lookupJ r "slug" = some (Json.str (create_slug "Hello, World!")) ∧
      lookupJ r "shortAuthorName" =
        some (Json.str (extract_first_author "Smith, Jones")) ∧
      ∀ k, k ≠ "slug" → k ≠ "shortAuthorName" →
        lookupJ r k = lookupJ
          [("id", Json.num 7), ("title", Json.str "Hello, World!"),
           ("author", Json.str "Smith, Jones")] k) :=
  C9_enrichment_frame.1
    [("id", Json.num 7), ("title", Json.str "Hello, World!"),
     ("author", Json.str "Smith, Jones")]
    "Hello, World!" "Smith, Jones" rfl rfl

/-- Enriching a list of well-formed records succeeds, preserves length,
and stamps string-valued `slug` and `shortAuthorName` onto every record. -/
lemma enrichAll_ok (records : List Json)
    (h : ∀ j ∈ records, ∃ a t au, j = Json.obj a ∧
      dictGetStr a "title" = some t ∧ dictGetStr a "author" = some au) :
    ∃ enriched, enrichAll records = some (PyRes.ok enriched) ∧
      enriched.length = records.length ∧
      ∀ r ∈ enriched,
        (∃ s, lookupJ r "slug" = some (Json.str s)) ∧
        (∃ s, lookupJ r "shortAuthorName" = some (Json.str s)) := by
  induction records with
  | nil => exact ⟨[], rfl, rfl, by simp⟩
  | cons j rest ih =>
    obtain ⟨a, t, au, rfl, ht, hau⟩ := h j (List.mem_cons_self j rest)
    obtain ⟨enriched, he, hlen, hall⟩ := ih (fun j' hj' => h j' (List.mem_cons_of_mem _ hj'))
    refine ⟨(setKey (setKey a "slug" (Json.str (create_slug t)))
      "shortAuthorName" (Json.str (extract_first_author au))) :: enriched,
      ?_, by simp [hlen], ?_⟩
    · simp [enrichAll, enrichRecord_eq a t au ht hau, he]
    · intro r hr
      rcases List.mem_cons.mp hr with hr | hr
      · subst hr
        constructor
        · exact ⟨_, by rw [lookupJ_setKey_other _ _ _ _ (by decide), lookupJ_setKey_self]⟩
        · exact ⟨_, lookupJ_setKey_self _ _ _⟩
      · exact hall r hr

/-- C4.  A successful upstream list body (a non-empty `data` collection
of well-formed records, with its pagination fields) is answered with the
HTTP 200 list view: exactly as many enriched records as the upstream
sent, each carrying a string (hence non-null) `slug` and
`shortAuthorName`, together with the upstream `currentPage` and
`totalPages`, the fixed `PAGE_SIZE`, and the echoed search term. -/
theorem C4_list_success :
    ∀ (fields : List (String × Json)) (records : List Json) (tp cp : Json)
      (search : Option String),
      lookupJ fields "data" = some (Json.arr records) →
      records ≠ [] →
      (∀ j ∈ records, ∃ a t au, j = Json.obj a ∧
        dictGetStr a "title" = some t ∧ dictGetStr a "author" = some au) →
      lookupJ fields "totalPages" = some tp →
      lookupJ fields "currentPage" = some cp →
      ∃ enriched,
        serve_article_list (some (Json.obj fields)) search =
          some (PyRes.ok (ListResponse.page 200 enriched cp tp PAGE_SIZE search)) ∧
        enriched.length = records.length ∧
        ∀ r ∈ enriched,
          (∃ s, lookupJ r "slug" = some (Json.str s)) ∧
          (∃ s, lookupJ r "shortAuthorName" = some (Json.str s)) := by
  intro fields records tp cp search hd hne hgood htp hcp
  obtain ⟨enriched, he, hlen, hall⟩ := enrichAll_ok records hgood
  exact ⟨enriched, serve_list_success fields records enriched tp cp search
    hd hne he htp hcp, hlen, hall⟩

/-- C4 witness: a one-record upstream body with pagination metadata. -/
theorem C4_witness :
    ∃ enriched,
      serve_article_list (some (Json.obj
        [("data", Json.arr [Json.obj
          [("title", Json.str "Hello, World!"), ("author", Json.str "Smith, Jones")]]),
         ("totalPages", Json.num 3), ("currentPage", Json.num 1)])) (some "hello") =
        some (PyRes.ok (ListResponse.page 200 enriched (Json.num 1) (Json.num 3)
          PAGE_SIZE (some "hello"))) ∧
      enriched.length = 1 ∧
      ∀ r ∈ enriched,
        (∃ s, lookupJ r "slug" = some (Json.str s)) ∧
        (∃ s, lookupJ r "shortAuthorName" = some (Json.str s)) := by
  have h := C4_list_success
    [("data", Json.arr [Json.obj
      [("title", Json.str "Hello, World!"), ("author", Json.str "Smith, Jones")]]),
     ("totalPages", Json.num 3), ("currentPage", Json.num 1)]
    [Json.obj [("title", Json.str "Hello, World!"), ("author", Json.str "Smith, Jones")]]
    (Json.num 3) (Json.num 1) (some "hello") rfl (by simp)
    (by
      intro j hj
      simp only [List.mem_singleton] at hj
      exact ⟨[("title", Json.str "Hello, World!"), ("author", Json.str "Smith, Jones")],
        "Hello, World!", "Smith, Jones", hj, rfl, rfl⟩)
    rfl rfl
  simpa using h

/-- No two consecutive separators. -/
def noDD : List Char → Bool
  | [] => true
  | [_] => true
  | a :: b :: rest => !((a == '-') && (b == '-')) && noDD (b :: rest)

/-- The head, if any, is not a separator. -/
def noLeadDash : List Char → Bool
  | [] => true
  | c :: _ => !(c == '-')

/-- The last element, if any, is not a separator. -/
def noTrailDash : List Char → Bool
  | [] => true
  | [c] => !(c == '-')
  | _ :: rest => noTrailDash rest

lemma toSlugChar_idem (c : Char) : toSlugChar (toSlugChar c) = toSlugChar c := by
  by_cases ha : isAsciiAlnum c
  · by_cases hu : 65 ≤ c.toNat ∧ c.toNat ≤ 90
    · have h1 : toSlugChar c = Char.ofNat (c.toNat + 32) := by
        simp [toSlugChar, ha, lowerAscii, hu]
      rw [h1]
      rcases hu with ⟨hl, hr⟩
      generalize hg : c.toNat = n at hl hr
      interval_cases n <;> decide
    · have h1 : toSlugChar c = c := by simp [toSlugChar, ha, lowerAscii, hu]
      rw [h1, h1]
  · have h1 : toSlugChar c = '-' := by simp [toSlugChar, ha]
    rw [h1]
    decide

lemma noDD_tail (a : Char) (m : List Char) (h : noDD (a :: m) = true) :
    noDD m = true := by
  cases m with
  | nil => rfl
  | cons b t => exact (Bool.and_eq_true_iff.mp h).2

lemma squeeze_head (rest : List Char) :
    ∀ b : Char, ∃ t, squeeze (b :: rest) = b :: t := by
  induction rest with
  | nil => exact fun b => ⟨[], rfl⟩
  | cons c rest' ih =>
    intro b
    by_cases h : b = '-' ∧ c = '-'
    · obtain ⟨t, ht⟩ := ih c
      refine ⟨t, ?_⟩
      rw [squeeze, if_pos h, ht, h.1, h.2]
    · exact ⟨squeeze (c :: rest'), by rw [squeeze, if_neg h]⟩

lemma noDD_squeeze : ∀ l : List Char, noDD (squeeze l) = true := by
  intro l
  induction l with
  | nil => rfl
  | cons a rest ih =>
    cases rest with
    | nil => rfl
    | cons b rest' =>
      by_cases h : a = '-' ∧ b = '-'
      · rw [squeeze, if_pos h]
        exact ih
      · rw [squeeze, if_neg h]
        obtain ⟨t, ht⟩ := squeeze_head rest' b
        rw [ht]
        have h2 : ((a == '-') && (b == '-')) = false := by
          by_cases h1 : a = '-'
          · have hb : ¬ b = '-' := fun hb => h ⟨h1, hb⟩
            simp [hb]
          · simp [h1]
        have h3 : noDD (b :: t) = true := by rw [← ht]; exact ih
        simp [noDD, h2, h3]

lemma squeeze_id : ∀ l : List Char, noDD l = true → squeeze l = l := by
  intro l
  induction l with
  | nil => intro _; rfl
  | cons a rest ih =>
    cases rest with
    | nil => intro _; rfl
    | cons b rest' =>
      intro h
      obtain ⟨hab, htl⟩ := Bool.and_eq_true_iff.mp h
      have hne : ¬(a = '-' ∧ b = '-') := by
        rintro ⟨rfl, rfl⟩
        simp at hab
      rw [squeeze, if_neg hne, ih htl]

lemma mem_squeeze : ∀ l x, x ∈ squeeze l → x ∈ l := by
  intro l
  induction l with
  | nil => intro x h; exact h
  | cons a rest ih =>
    cases rest with
    | nil => intro x h; exact h
    | cons b rest' =>
      intro x h
      by_cases hab : a = '-' ∧ b = '-'
      · rw [squeeze, if_pos hab] at h
        exact List.mem_cons_of_mem a (ih x h)
      · rw [squeeze, if_neg hab] at h
        rcases List.mem_cons.mp h with h | h
        · exact h ▸ List.mem_cons_self a _
        · exact List.mem_cons_of_mem a (ih x h)

lemma noLeadDash_trimLeft : ∀ l : List Char, noLeadDash (trimLeft l) = true := by
  intro l
  induction l with
  | nil => rfl
  | cons c rest ih =>
    by_cases hc : c = '-'
    · rw [trimLeft, List.dropWhile_cons, if_pos (by simp [hc])]
      exact ih
    · rw [trimLeft, List.dropWhile_cons, if_neg (by simp [hc])]
      simp [noLeadDash, hc]

lemma trimLeft_id (l : List Char) (h : noLeadDash l = true) : trimLeft l = l := by
  cases l with
  | nil => rfl
  | cons c rest =>
    have hc : ¬ c = '-' := by simpa [noLeadDash] using h
    rw [trimLeft, List.dropWhile_cons, if_neg (by simp [hc])]

lemma noDD_trimLeft : ∀ l : List Char, noDD l = true → noDD (trimLeft l) = true := by
  intro l
  induction l with
  | nil => intro _; rfl
  | cons c rest ih =>
    intro h
    by_cases hc : c = '-'
    · rw [trimLeft, List.dropWhile_cons, if_pos (by simp [hc])]
      exact ih (noDD_tail c rest h)
    · rw [trimLeft, List.dropWhile_cons, if_neg (by simp [hc])]
      exact h

lemma mem_trimLeft : ∀ l x, x ∈ trimLeft l → x ∈ l := by
  intro l
  induction l with
  | nil => intro x h; exact h
  | cons c rest ih =>
    intro x h
    by_cases hc : c = '-'
    · rw [trimLeft, List.dropWhile_cons, if_pos (by simp [hc])] at h
      exact List.mem_cons_of_mem c (ih x h)
    · rw [trimLeft, List.dropWhile_cons, if_neg (by simp [hc])] at h
      exact h

lemma noTrailDash_trimRight : ∀ l : List Char, noTrailDash (trimRight l) = true := by
  intro l
  induction l with
  | nil => rfl
  | cons a rest ih =>
    cases htr : trimRight rest with
    | nil =>
      by_cases ha : a = '-'
      · rw [trimRight, htr, if_pos ha]
        rfl
      · rw [trimRight, htr, if_neg ha]
        simp [noTrailDash, ha]
    | cons b t =>
      rw [trimRight, htr]
      show noTrailDash (b :: t) = true
      rw [← htr]
      exact ih

lemma trimRight_id : ∀ l : List Char, noTrailDash l = true → trimRight l = l := by
  intro l
  induction l with
  | nil => intro _; rfl
  | cons a rest ih =>
    cases rest with
    | nil =>
      intro h
      have ha : ¬ a = '-' := by simpa [noTrailDash] using h
      rw [trimRight, trimRight, if_neg ha]
    | cons b t =>
      intro h
      have h' : noTrailDash (b :: t) = true := h
      rw [trimRight, ih h']

lemma trimRight_append : ∀ l : List Char, ∃ d, l = trimRight l ++ d := by
  intro l
  induction l with
  | nil => exact ⟨[], rfl⟩
  | cons a rest ih =>
    obtain ⟨d, hd⟩ := ih
    cases htr : trimRight rest with
    | nil =>
      by_cases ha : a = '-'
      · refine ⟨a :: rest, ?_⟩
        rw [trimRight, htr, if_pos ha]
        rfl
      · refine ⟨d, ?_⟩
        rw [trimRight, htr, if_neg ha]
        rw [htr] at hd
        simpa using congrArg (List.cons a) hd
    | cons b t =>
      refine ⟨d, ?_⟩
      rw [trimRight, htr]
      rw [htr] at hd
      simpa using congrArg (List.cons a) hd

lemma noDD_append_left : ∀ l d : List Char, noDD (l ++ d) = true → noDD l = true := by
  intro l
  induction l with
  | nil => intro d _; rfl
  | cons a l' ih =>
    intro d h
    cases l' with
    | nil => rfl
    | cons b t =>
      have h' : noDD (a :: b :: (t ++ d)) = true := h
      obtain ⟨hab, htl⟩ := Bool.and_eq_true_iff.mp h'
      have h2 : noDD (b :: t) = true := ih d htl
      simp [noDD, hab, h2]

lemma noDD_trimRight (l : List Char) (h : noDD l = true) :
    noDD (trimRight l) = true := by
  obtain ⟨d, hd⟩ := trimRight_append l
  rw [hd] at h
  exact noDD_append_left _ _ h

lemma noLeadDash_trimRight (l : List Char) (h : noLeadDash l = true) :
    noLeadDash (trimRight l) = true := by
  cases l with
  | nil => rfl
  | cons a rest =>
    have ha : ¬ a = '-' := by simpa [noLeadDash] using h
    cases htr : trimRight rest with
    | nil =>
      rw [trimRight, htr, if_neg ha]
      simpa [noLeadDash] using ha
    | cons b t =>
      rw [trimRight, htr]
      simpa [noLeadDash] using ha

lemma mem_trimRight (l : List Char) (x : Char) (h : x ∈ trimRight l) : x ∈ l := by
  obtain ⟨d, hd⟩ := trimRight_append l
  rw [hd]
  exact List.mem_append.mpr (Or.inl h)

lemma map_fixed (l : List Char) (h : ∀ c ∈ l, toSlugChar c = c) :
    l.map toSlugChar = l := by
  induction l with
  | nil => rfl
  | cons c rest ih =>
    rw [List.map_cons, h c (List.mem_cons_self c rest),
      ih (fun c' hc' => h c' (List.mem_cons_of_mem c hc'))]

lemma slugify_fixed (x : List Char) (hfix : ∀ c ∈ x, toSlugChar c = c)
    (hdd : noDD x = true) (hlead : noLeadDash x = true)
    (htrail : noTrailDash x = true) :
    slugify (String.mk x) = String.mk x := by
  show String.mk (trimRight (trimLeft (squeeze (x.map toSlugChar)))) = String.mk x
  rw [map_fixed x hfix, squeeze_id x hdd, trimLeft_id x hlead, trimRight_id x htrail]

lemma slugify_idem (s : String) : slugify (slugify s) = slugify s := by
  have hfix : ∀ c ∈ trimRight (trimLeft (squeeze (s.data.map toSlugChar))),
      toSlugChar c = c := by
    intro c hc
    have h1 : c ∈ s.data.map toSlugChar :=
      mem_squeeze _ c (mem_trimLeft _ c (mem_trimRight _ c hc))
    obtain ⟨c0, _, rfl⟩ := List.mem_map.mp h1
    exact toSlugChar_idem c0
  show slugify (String.mk (trimRight (trimLeft (squeeze (s.data.map toSlugChar))))) =
    String.mk (trimRight (trimLeft (squeeze (s.data.map toSlugChar))))
  exact slugify_fixed _ hfix
    (noDD_trimRight _ (noDD_trimLeft _ (noDD_squeeze _)))
    (noLeadDash_trimRight _ (noLeadDash_trimLeft _))
    (noTrailDash_trimRight _)

/-- C6.  `create_slug` is idempotent — slugifying an already-generated
slug returns it unchanged — and maps the empty title to the empty
string.  (Determinism is immediate: it is a pure function of its
argument.) -/
theorem C6_create_slug_idempotent :
    (∀ t, create_slug (create_slug t) = create_slug t) ∧ create_slug "" = "" := by
  refine ⟨?_, rfl⟩
  intro t
  by_cases h : t = ""
  · simp [h, create_slug]
  · have h1 : create_slug t = slugify t := by rw [create_slug, if_neg h]
    rw [h1]
    by_cases h2 : slugify t = ""
    · rw [create_slug, if_pos h2, h2]
    · rw [create_slug, if_neg h2]
      exact slugify_idem t

end Paperium
